import Mathlib

/-!
# Verification of the StableHLO → TFLite custom-op legalization pass

Shallow embedding of
`tensorflow/compiler/mlir/lite/stablehlo/transforms/stablehlo_tfl_pass.cc`.
The pass walks a function, replaces every StableHLO operation by a
`tfl.custom` operation whose options payload is a flexbuffer map built from
the operation's attributes (`BuildOption`), unwrapping the two allow-listed
`stablehlo.composite` specializations.

The flexbuffer builder (`flexbuffers::Builder`) and the StableHLO enum
stringifiers are external collaborators of the file under `src/`; their
behaviour is modelled from the spec where noted.  Undefined behaviour in the
C++ source (a method call on a null attribute, or violating the builder's
stack discipline) is modelled by `Option.none`.
-/

namespace StablehloTfl

/-- Source location attached to an operation (`op->getLoc()`), abstracted to an id. -/
abbrev Loc := Nat

/-- One diagnostic produced by `emitWarning(loc, ...) << ...`: location and message. -/
abbrev Warning := Loc × String

/-- Stand-in for a C++ `double`: the pass only moves doubles around
(`getValueAsDouble`), never computes with them, so they are abstracted to an
opaque bit-pattern id. -/
abbrev Dbl := Int

/-- Element type of an `mlir::ElementsAttr`, restricted to the queries the
source performs: `isInteger(w)`, `isF32`, `isF64`, `isF128`. -/
inductive EType where
  | int (width : Nat)
  | f32
  | f64
  | f128
  | other (tag : String)
deriving DecidableEq

/-- `mlir::Type::isInteger(w)`. -/
def EType.isInteger : EType → Nat → Bool
  | .int w, n => w == n
  | _, _ => false

/-- `mlir::Type::isF32()`. -/
def EType.isF32 : EType → Bool
  | .f32 => true
  | _ => false

/-- `mlir::Type::isF64()`. -/
def EType.isF64 : EType → Bool
  | .f64 => true
  | _ => false

/-- `mlir::Type::isF128()`. -/
def EType.isF128 : EType → Bool
  | .f128 => true
  | _ => false

/-- The integer-element-type test of the `ElementsAttr` branch
(source lines 99-100), abbreviated.  Note: width 8 is absent in the source. -/
def EType.intLike (t : EType) : Bool :=
  t.isInteger 16 || t.isInteger 32 || t.isInteger 64 || t.isInteger 128 || t.isInteger 1

/-- The float-element-type test of the `ElementsAttr` branch (source line 105). -/
def EType.floatLike (t : EType) : Bool :=
  t.isF32 || t.isF64 || t.isF128

/-- `mlir::stablehlo::Precision`. -/
inductive Precision where
  | DEFAULT
  | HIGH
  | HIGHEST
deriving DecidableEq

/-- Modelled from the spec: `mlir::stablehlo::stringifyPrecision` is external
(`@stablehlo`), not under `src/`; the spec says the enumerated precision tag
"is stringified via its canonical lowercase name before insertion". -/
def stringifyPrecision : Precision → String
  | .DEFAULT => "default"
  | .HIGH => "high"
  | .HIGHEST => "highest"

/-- `mlir::stablehlo::ComparisonDirection`. -/
inductive ComparisonDirection where
  | EQ | NE | GE | GT | LE | LT
deriving DecidableEq

/-- Modelled from the spec: `mlir::stablehlo::stringifyComparisonDirection` is
external, not under `src/`; the spec says enumerated string tags are
"stringified to canonical name". -/
def stringifyComparisonDirection : ComparisonDirection → String
  | .EQ => "EQ"
  | .NE => "NE"
  | .GE => "GE"
  | .GT => "GT"
  | .LE => "LE"
  | .LT => "LT"

/-- `mlir::stablehlo::ComparisonType`. -/
inductive ComparisonType where
  | NOTYPE | FLOAT | TOTALORDER | SIGNED | UNSIGNED
deriving DecidableEq

/-- Modelled from the spec: `mlir::stablehlo::stringifyComparisonType` is
external, not under `src/`; the spec says enumerated string tags are
"stringified to canonical name". -/
def stringifyComparisonType : ComparisonType → String
  | .NOTYPE => "NOTYPE"
  | .FLOAT => "FLOAT"
  | .TOTALORDER => "TOTALORDER"
  | .SIGNED => "SIGNED"
  | .UNSIGNED => "UNSIGNED"

/-- `mlir::stablehlo::ConvDimensionNumbersAttr`, with one field per getter the
source reads (lines 173-181). -/
structure ConvDimensionNumbers where
  inputBatchDimension : Int
  inputFeatureDimension : Int
  inputSpatialDimensions : List Int
  kernelInputFeatureDimension : Int
  kernelOutputFeatureDimension : Int
  kernelSpatialDimensions : List Int
  outputBatchDimension : Int
  outputFeatureDimension : Int
  outputSpatialDimensions : List Int
deriving DecidableEq

/-- `mlir::stablehlo::GatherDimensionNumbersAttr` (getters at lines 190-193). -/
structure GatherDimensionNumbers where
  offsetDims : List Int
  collapsedSliceDims : List Int
  startIndexMap : List Int
  indexVectorDim : Int
deriving DecidableEq

/-- `mlir::stablehlo::ScatterDimensionNumbersAttr` (getters at lines 202-205). -/
structure ScatterDimensionNumbers where
  updateWindowDims : List Int
  insertedWindowDims : List Int
  scatterDimsToOperandDims : List Int
  indexVectorDim : Int
deriving DecidableEq

/-- `mlir::stablehlo::DotDimensionNumbersAttr` (getters at lines 214-217). -/
structure DotDimensionNumbers where
  lhsBatchingDimensions : List Int
  rhsBatchingDimensions : List Int
  lhsContractingDimensions : List Int
  rhsContractingDimensions : List Int
deriving DecidableEq

/-- One `mlir::Attribute`, as a closed sum of the kinds the `isa<...>` cascade
of `BuildOption` distinguishes.  `elements` carries the element type together
with the values yielded by `getValues<IntegerAttr>` resp. `getValues<FloatAttr>`
(only the list matching the element type is meaningful; the source only reads
the matching one).  `unsupported` stands for every further attribute kind,
which reaches the default arm. -/
inductive Attr where
  | integer (v : Int)
  | float (v : Dbl)
  | elements (ftype : EType) (ivals : List Int) (dvals : List Dbl)
  | denseI64 (xs : List Int)
  | denseBool (xs : List Bool)
  | string (s : String)
  | array (xs : List Attr)
  | precision (p : Precision)
  | convDims (d : ConvDimensionNumbers)
  | gatherDims (d : GatherDimensionNumbers)
  | scatterDims (d : ScatterDimensionNumbers)
  | dotDims (d : DotDimensionNumbers)
  | comparisonDirection (d : ComparisonDirection)
  | comparisonType (t : ComparisonType)
  | unsupported (tag : String)

/-- `value.isa<mlir::StringAttr>()`. -/
def isStringAttr : Attr → Bool
  | .string _ => true
  | _ => false

/-- `value.isa<mlir::stablehlo::PrecisionAttr>()`. -/
def isPrecisionAttr : Attr → Bool
  | .precision _ => true
  | _ => false

/-- One value on the flexbuffer builder stack.  `key` is a pushed map key
(flexbuffer keys are first-class stack values, `FBT_KEY`). -/
inductive FlexValue where
  | int (i : Int)
  | double (d : Dbl)
  | bool (b : Bool)
  | str (s : String)
  | key (s : String)
  | vec (typed : Bool) (elems : List FlexValue)
  | map (entries : List (String × FlexValue))

/-- Constructor tag of a stack value, used for the typed-vector uniformity
check. -/
def FlexValue.kindIdx : FlexValue → Nat
  | .int _ => 0
  | .double _ => 1
  | .bool _ => 2
  | .str _ => 3
  | .key _ => 4
  | .vec _ _ => 5
  | .map _ => 6

/-- All elements of a prospective typed vector share one kind (the flexbuffer
builder asserts this when `EndVector` is called with `typed = true`). -/
def sameKind : List FlexValue → Bool
  | [] => true
  | v :: vs => vs.all (fun w => w.kindIdx == v.kindIdx)

/-- Modelled from the spec: the state of a `flexbuffers::Builder`, an external
collaborator ("a binary builder abstraction", spec §2); values are pushed onto
a stack and grouped into vectors/maps by recorded start offsets. -/
structure Builder where
  stack : List FlexValue

/-- A fresh `flexbuffers::Builder`. -/
def Builder.empty : Builder := ⟨[]⟩

/-- Push one value. -/
def Builder.push (b : Builder) (v : FlexValue) : Builder := ⟨b.stack ++ [v]⟩

/-- `fbb->Key(key)`: push a map key. -/
def Builder.Key (b : Builder) (k : String) : Builder := b.push (.key k)

/-- `fbb->Int(key, i)`. -/
def Builder.Int (b : Builder) (k : String) (i : Int) : Builder :=
  (b.Key k).push (.int i)

/-- `fbb->Double(key, d)`. -/
def Builder.Double (b : Builder) (k : String) (d : Dbl) : Builder :=
  (b.Key k).push (.double d)

/-- `fbb->String(key, s)`. -/
def Builder.String (b : Builder) (k s : String) : Builder :=
  (b.Key k).push (.str s)

/-- `fbb->Add(v)` (any of the `Add` overloads, value already converted). -/
def Builder.Add (b : Builder) (v : FlexValue) : Builder := b.push v

/-- `fbb->StartVector()`: record the current stack size. -/
def Builder.StartVector (b : Builder) : Nat := b.stack.length

/-- `fbb->StartMap()`: record the current stack size. -/
def Builder.StartMap (b : Builder) : Nat := b.stack.length

/-- `fbb->EndVector(start, typed, fixed)`: pop everything above `start` into a
vector value.  A typed vector with elements of mixed kinds violates the
builder's assertion, modelled as `none`.  The `fixed` flag is always `false`
at every call site of the source and does not affect this model. -/
def Builder.EndVector (b : Builder) (start : Nat) (typed : Bool) (_fixed : Bool) :
    Option Builder :=
  let elems := b.stack.drop start
  if typed && !sameKind elems then none
  else some ⟨b.stack.take start ++ [.vec typed elems]⟩

/-- Modelled from the spec: the builder's map region must hold alternating
key/value pairs (`flexbuffers::Builder::EndMap` asserts this); the resulting
map keeps insertion order, per spec §3 "insertion order is the encode order". -/
def pairUp : List FlexValue → Option (List (String × FlexValue))
  | [] => some []
  | .key k :: v :: rest => (pairUp rest).map (fun es => (k, v) :: es)
  | _ => none

/-- `fbb->EndMap(start)`: pop everything above `start` into a map value;
a region that is not alternating key/value pairs violates the builder's
assertions, modelled as `none`. -/
def Builder.EndMap (b : Builder) (start : Nat) : Option Builder :=
  (pairUp (b.stack.drop start)).map
    (fun es => ⟨b.stack.take start ++ [.map es]⟩)

/-- Eight little-endian base-256 bytes of a natural number. -/
def nat8 (n : Nat) : List Nat :=
  [n % 256, n / 256 % 256, n / 256 ^ 2 % 256, n / 256 ^ 3 % 256,
   n / 256 ^ 4 % 256, n / 256 ^ 5 % 256, n / 256 ^ 6 % 256, n / 256 ^ 7 % 256]

/-- Sign byte followed by the magnitude bytes of an integer. -/
def intBytes (i : Int) : List Nat :=
  (if i < 0 then 1 else 0) :: nat8 i.natAbs

/-- Length-prefixed code points of a string. -/
def strBytes (s : String) : List Nat :=
  s.length :: s.toList.map Char.toNat

mutual

/-- Modelled from the spec: `fbb->Finish()` plus `GetBuffer()` serialize the
root value into a byte buffer; flexbuffers itself is external, the spec (§6)
only fixes "a compact, self-describing, schema-less map format (type-tagged
length-prefixed values, typed/untyped vectors)".  Each value is emitted as a
type tag followed by a length-prefixed body. -/
def flexSerialize : FlexValue → List Nat
  | .int i => 0 :: intBytes i
  | .double d => 1 :: intBytes d
  | .bool b => 2 :: [if b then 1 else 0]
  | .str s => 3 :: strBytes s
  | .key s => 4 :: strBytes s
  | .vec typed elems => (if typed then 5 else 6) :: elems.length :: flexSerializeList elems
  | .map entries => 7 :: entries.length :: flexSerializeEntries entries

/-- Serialized concatenation of a list of values. -/
def flexSerializeList : List FlexValue → List Nat
  | [] => []
  | v :: vs => flexSerialize v ++ flexSerializeList vs

/-- Serialized concatenation of a list of map entries. -/
def flexSerializeEntries : List (String × FlexValue) → List Nat
  | [] => []
  | (k, v) :: rest => strBytes k ++ flexSerialize v ++ flexSerializeEntries rest

end

/-- `AddIntegerArray` (source lines 72-78): an unkeyed started/ended untyped
vector holding each integer of `vec`. -/
def AddIntegerArray (fbb : Builder) (vec : List Int) : Option Builder :=
  let start_input_dim := fbb.StartVector
  let b1 := vec.foldl (fun bb int_value => bb.Add (.int int_value)) fbb
  b1.EndVector start_input_dim false false

/-- `BuildOption` (source lines 80-242): encode one named attribute into the
builder.  The result is the updated builder, the warnings emitted through the
diagnostics channel, and the `LogicalResult` (`true` = `success()`).  `none`
models undefined behaviour: calling `.data()` on a null
`dyn_cast_or_null<StringAttr>` result (line 161), or an `EndVector` assertion
violation. -/
def BuildOption (fbb : Builder) (op_loc : Loc) (pair : String × Attr) :
    Option (Builder × List Warning × Bool) :=
  let key := pair.1
  match pair.2 with
  | .integer v => some (fbb.Int key v, [], true)
  | .float v => some (fbb.Double key v, [], true)
  | .elements ftype ivals dvals =>
    let b0 := fbb.Key key
    let start := b0.stack.length
    if ftype.isInteger 16 || ftype.isInteger 32 || ftype.isInteger 64 ||
        ftype.isInteger 128 || ftype.isInteger 1 then
      let b1 := ivals.foldl (fun bb int_value => bb.Add (.int int_value)) b0
      (b1.EndVector start true false).map (fun b2 => (b2, [], true))
    else if ftype.isF32 || ftype.isF64 || ftype.isF128 then
      let b1 := dvals.foldl (fun bb double_value => bb.Add (.double double_value)) b0
      (b1.EndVector start true false).map (fun b2 => (b2, [], true))
    else
      let w : Warning := (op_loc,
        "serialization of ElementsAttr for " ++ key ++ " only supports Integer and Float.")
      (b0.EndVector start true false).map (fun b2 => (b2, [w], true))
  | .denseI64 xs =>
    let b0 := fbb.Key key
    let start := b0.stack.length
    let b1 := xs.foldl (fun bb int_value => bb.Add (.int int_value)) b0
    (b1.EndVector start true false).map (fun b2 => (b2, [], true))
  | .denseBool xs =>
    let b0 := fbb.Key key
    let start := b0.stack.length
    let b1 := xs.foldl (fun bb bool_value => bb.Add (.bool bool_value)) b0
    (b1.EndVector start true false).map (fun b2 => (b2, [], true))
  | .string s => some (fbb.String key s, [], true)
  | .array xs =>
    let b0 := fbb.Key key
    let start := b0.stack.length
    if xs.length > 1 && !(xs.head?.elim false isStringAttr) &&
        !(xs.head?.elim false isPrecisionAttr) then
      some (b0, [(op_loc,
        "serialization of ArrayAttr for " ++ key ++ " only supports Strings.")], true)
    else
      (xs.mapM (fun value =>
          match value with
          | Attr.precision p => some (FlexValue.str (stringifyPrecision p))
          | Attr.string s => some (FlexValue.str s)
          | _ => none)).bind (fun strs =>
        let b1 := strs.foldl (fun (bb : Builder) string_value => bb.Add string_value) b0
        (b1.EndVector start true false).map (fun b2 => (b2, [], true)))
  | .convDims d =>
    let b0 := fbb.Key key
    let start := b0.stack.length
    let b1 := b0.Add (.int d.inputBatchDimension)
    let b2 := b1.Add (.int d.inputFeatureDimension)
    (AddIntegerArray b2 d.inputSpatialDimensions).bind (fun b3 =>
      let b4 := b3.Add (.int d.kernelInputFeatureDimension)
      let b5 := b4.Add (.int d.kernelOutputFeatureDimension)
      (AddIntegerArray b5 d.kernelSpatialDimensions).bind (fun b6 =>
        let b7 := b6.Add (.int d.outputBatchDimension)
        let b8 := b7.Add (.int d.outputFeatureDimension)
        (AddIntegerArray b8 d.outputSpatialDimensions).bind (fun b9 =>
          (b9.EndVector start false false).map (fun bA => (bA, [], true)))))
  | .gatherDims d =>
    let b0 := fbb.Key key
    let start := b0.stack.length
    (AddIntegerArray b0 d.offsetDims).bind (fun b1 =>
      (AddIntegerArray b1 d.collapsedSliceDims).bind (fun b2 =>
        (AddIntegerArray b2 d.startIndexMap).bind (fun b3 =>
          let b4 := b3.Add (.int d.indexVectorDim)
          (b4.EndVector start false false).map (fun b5 => (b5, [], true)))))
  | .scatterDims d =>
    let b0 := fbb.Key key
    let start := b0.stack.length
    (AddIntegerArray b0 d.updateWindowDims).bind (fun b1 =>
      (AddIntegerArray b1 d.insertedWindowDims).bind (fun b2 =>
        (AddIntegerArray b2 d.scatterDimsToOperandDims).bind (fun b3 =>
          let b4 := b3.Add (.int d.indexVectorDim)
          (b4.EndVector start false false).map (fun b5 => (b5, [], true)))))
  | .dotDims d =>
    let b0 := fbb.Key key
    let start := b0.stack.length
    (AddIntegerArray b0 d.lhsBatchingDimensions).bind (fun b1 =>
      (AddIntegerArray b1 d.rhsBatchingDimensions).bind (fun b2 =>
        (AddIntegerArray b2 d.lhsContractingDimensions).bind (fun b3 =>
          (AddIntegerArray b3 d.rhsContractingDimensions).bind (fun b4 =>
            (b4.EndVector start false false).map (fun b5 => (b5, [], true))))))
  | .comparisonDirection d =>
    some (fbb.String key (stringifyComparisonDirection d), [], true)
  | .comparisonType t =>
    some (fbb.String key (stringifyComparisonType t), [], true)
  | _ => some (fbb, [(op_loc, "serialization not supported for : " ++ key)], false)

/-- One operation of the walked function.  Operands are references
`(producer id, result index)`; `composite` is `some (inner name, nested
attribute dictionary)` exactly when `dyn_cast<stablehlo::CompositeOp>`
succeeds; `customCode` and `payload` are the extra data of a `tfl.custom`
operation (`none` on source-dialect nodes). -/
structure Node where
  id : Nat
  dialect : String
  opName : String
  attrs : List (String × Attr)
  composite : Option (String × List (String × Attr))
  operands : List (Nat × Nat)
  resultTypes : List Nat
  loc : Loc
  customCode : Option String := none
  payload : Option (List Nat) := none

/-- The fixed allow-list of composite specializations (source lines 247-248). -/
def supportedComposites : List String :=
  ["odml.update_kv_cache", "odml.scaled_dot_product_attention"]

/-- `IsSupportedComposite` (source lines 244-253): membership in the
allow-list, emitting a warning when absent. -/
def IsSupportedComposite (loc : Loc) (op_name : String) : Bool × List Warning :=
  if supportedComposites.contains op_name then (true, [])
  else (false, [(loc, "composite has no specializaiton " ++ op_name)])

/-- The name/attribute-set selection of `runOnOperation` (source lines
264-276): an allow-listed composite contributes its inner name and nested
attribute dictionary, everything else its own name and attribute dictionary. -/
def chooseNameAndOptions (n : Node) : String × List (String × Attr) × List Warning :=
  match n.composite with
  | some c =>
    let r := IsSupportedComposite n.loc c.1
    if r.1 then (c.1, c.2, r.2) else (n.opName, n.attrs, r.2)
  | none => (n.opName, n.attrs, [])

/-- The option-building loop of `runOnOperation` (source lines 279-287):
`StartMap` on a fresh builder, one `BuildOption` call per attribute with the
`LogicalResult` discarded, then `EndMap`.  Returns the root map value and the
accumulated warnings. -/
def buildNodeOptions (loc : Loc) (options : List (String × Attr)) :
    Option (FlexValue × List Warning) := do
  let fbb := Builder.empty
  let map_start := fbb.StartMap
  let r ← options.foldlM
    (fun (acc : Builder × List Warning) pair =>
      (BuildOption acc.1 loc pair).map (fun r => (r.1, acc.2 ++ r.2.1)))
    (fbb, ([] : List Warning))
  let b2 ← r.1.EndMap map_start
  match b2.stack with
  | [root] => some (root, r.2)
  | _ => none

/-- `fbb->Finish()` and the copy into `custom_option_buffer` (source lines
287-289): serialize the root value to bytes. -/
def serializeOptions (loc : Loc) (options : List (String × Attr)) :
    Option (List Nat × List Warning) :=
  (buildNodeOptions loc options).map (fun r => (flexSerialize r.1, r.2))

/-- Construction of the replacement `tfl.custom` operation (source lines
292-295): fresh identity, original location, result types and operands, the
chosen custom-op name and the serialized options payload. -/
def legalizeNode (fresh : Nat) (n : Node) : Option (Node × List Warning) :=
  let nameOpts := chooseNameAndOptions n
  (serializeOptions n.loc nameOpts.2.1).map (fun r =>
    ({ id := fresh, dialect := "tfl", opName := "tfl.custom", attrs := [],
       composite := none, operands := n.operands, resultTypes := n.resultTypes,
       loc := n.loc, customCode := some nameOpts.1, payload := some r.1 },
     nameOpts.2.2 ++ r.2))

/-- `op->replaceAllUsesWith(tfl_custom_op)`: every operand reference to a
result of `oldId` is redirected to the same-index result of `newId`. -/
def rewire (oldId newId : Nat) (n : Node) : Node :=
  { n with operands :=
      n.operands.map (fun p => if p.1 = oldId then (newId, p.2) else p) }

/-- The walk of `runOnOperation` (source lines 260-298): visit the remaining
operations left to right; skip non-StableHLO operations; replace a StableHLO
operation in place by its `tfl.custom` replacement, rewiring all uses in the
whole function and erasing the original. -/
def legalizeGo (fresh : Nat) (done rest : List Node) (ws : List Warning) :
    Option (List Node × List Warning) :=
  match rest with
  | [] => some (done, ws)
  | n :: rest' =>
    if n.dialect = "stablehlo" then
      match legalizeNode fresh n with
      | none => none
      | some r =>
        legalizeGo (fresh + 1) ((done ++ [r.1]).map (rewire n.id fresh))
          (rest'.map (rewire n.id fresh)) (ws ++ r.2)
    else legalizeGo fresh (done ++ [n]) rest' ws
termination_by rest.length
decreasing_by
  all_goals simp [List.length_map]

/-- First identity never used by an operation of the function (replacement
operations are freshly allocated, hence distinct from all existing ones). -/
def freshStart (fn : List Node) : Nat := (fn.map Node.id).foldl max 0 + 1

/-- `StablehloToTflPass::runOnOperation` on one function, as the list of its
operations: the full walk starting from an empty processed prefix. -/
def runOnOperation (fn : List Node) : Option (List Node × List Warning) :=
  legalizeGo (freshStart fn) [] fn []

/-- Spec-side helper for stating claims: the attributes whose `BuildOption`
branch succeeds without any warning (everything except the default arm, an
`ElementsAttr` with non-integer non-float element type, and an `ArrayAttr`
that is rejected or whose traversal dereferences a null cast). -/
def Attr.cleanlySupported : Attr → Bool
  | .integer _ => true
  | .float _ => true
  | .elements ftype _ _ => ftype.intLike || ftype.floatLike
  | .denseI64 _ => true
  | .denseBool _ => true
  | .string _ => true
  | .array xs => xs.all (fun a => isStringAttr a || isPrecisionAttr a)
  | .convDims _ => true
  | .gatherDims _ => true
  | .scatterDims _ => true
  | .dotDims _ => true
  | .comparisonDirection _ => true
  | .comparisonType _ => true
  | .precision _ => false
  | .unsupported _ => false

/-- Spec-side helper: the attribute kinds that fall through the whole
`isa<...>` cascade into the default arm of `BuildOption` (source line 241). -/
def Attr.hitsDefault : Attr → Bool
  | .precision _ => true
  | .unsupported _ => true
  | _ => false

/-- Spec-side helper: the stringification the `ArrayAttr` loop applies to a
valid element (source lines 153-164).  Unreachable fallback for other kinds,
which is only consulted under the validity hypothesis. -/
def arrayElemValue : Attr → FlexValue
  | .precision p => .str (stringifyPrecision p)
  | .string s => .str s
  | _ => .str ""

/-- The flat stack region corresponding to a list of map entries. -/
def entriesFlat : List (String × FlexValue) → List FlexValue
  | [] => []
  | (k, v) :: rest => .key k :: v :: entriesFlat rest

/-- A concrete StableHLO operation, used to evaluate the model on closed
inputs. -/
def sampleAdd : Node :=
  { id := 5, dialect := "stablehlo", opName := "stablehlo.add",
    attrs := [("axis", .integer 1)], composite := none,
    operands := [(1, 0), (2, 0)], resultTypes := [7], loc := 3 }

/-- The replacement produced for `sampleAdd` by `legalizeNode 10`. -/
def sampleAddRepl : Node × List Warning :=
  ({ id := 10, dialect := "tfl", opName := "tfl.custom", attrs := [],
     composite := none, operands := [(1, 0), (2, 0)], resultTypes := [7],
     loc := 3, customCode := some "stablehlo.add",
     payload := some (flexSerialize (.map [("axis", FlexValue.int 1)])) }, [])

/-- A concrete allow-listed `stablehlo.composite` operation. -/
def sampleComposite : Node :=
  { id := 6, dialect := "stablehlo", opName := "stablehlo.composite",
    attrs := [("name", .string "odml.update_kv_cache")],
    composite := some ("odml.update_kv_cache", [("num_layers", .integer 4)]),
    operands := [(1, 0)], resultTypes := [2], loc := 9 }

/-- The replacement produced for `sampleComposite` by `legalizeNode 20`. -/
def sampleCompositeRepl : Node × List Warning :=
  ({ id := 20, dialect := "tfl", opName := "tfl.custom", attrs := [],
     composite := none, operands := [(1, 0)], resultTypes := [2],
     loc := 9, customCode := some "odml.update_kv_cache",
     payload := some (flexSerialize (.map [("num_layers", FlexValue.int 4)])) }, [])

/-- A concrete operation of a different dialect. -/
def sampleArith : Node :=
  { id := 1, dialect := "arith", opName := "arith.constant", attrs := [],
    composite := none, operands := [], resultTypes := [0], loc := 0 }

/-- A concrete StableHLO operation with an empty attribute dictionary. -/
def sampleEmptyAttrs : Node :=
  { id := 2, dialect := "stablehlo", opName := "stablehlo.negate", attrs := [],
    composite := none, operands := [(0, 0)], resultTypes := [1], loc := 4 }

theorem Builder.ext_stack (b1 b2 : Builder) (h : b1.stack = b2.stack) : b1 = b2 := by
  cases b1; cases b2; simpa using h

theorem take_length_append (s l : List FlexValue) : (s ++ l).take s.length = s := by
  induction s with
  | nil => rfl
  | cons a s ih => simp [List.take_succ_cons, ih]

theorem drop_length_append (s l : List FlexValue) : (s ++ l).drop s.length = l := by
  induction s with
  | nil => rfl
  | cons a s ih => simp [ih]

theorem foldl_add_map_stack {α : Type} (f : α → FlexValue) (xs : List α) (b : Builder) :
    (xs.foldl (fun bb v => bb.Add (f v)) b).stack = b.stack ++ xs.map f := by
  induction xs generalizing b with
  | nil => simp
  | cons x xs ih =>
    rw [List.map_cons, List.foldl_cons, ih]
    simp [Builder.Add, Builder.push]

theorem foldl_add_stack (xs : List FlexValue) (b : Builder) :
    (xs.foldl (fun bb v => bb.Add v) b).stack = b.stack ++ xs := by
  induction xs generalizing b with
  | nil => simp
  | cons x xs ih =>
    rw [List.foldl_cons, ih]
    simp [Builder.Add, Builder.push]

theorem sameKind_of_kind (l : List FlexValue) (k : Nat) (h : ∀ v ∈ l, v.kindIdx = k) :
    sameKind l = true := by
  cases l with
  | nil => rfl
  | cons v vs =>
    simp only [sameKind, List.all_eq_true, beq_iff_eq]
    intro w hw
    rw [h w (List.mem_cons_of_mem _ hw), h v (List.mem_cons_self _ _)]

theorem sameKind_map_int (xs : List Int) : sameKind (xs.map FlexValue.int) = true :=
  sameKind_of_kind _ 0 (by
    intro v hv
    obtain ⟨x, _, rfl⟩ := List.mem_map.mp hv
    rfl)

theorem sameKind_map_double (xs : List Dbl) : sameKind (xs.map FlexValue.double) = true :=
  sameKind_of_kind _ 1 (by
    intro v hv
    obtain ⟨x, _, rfl⟩ := List.mem_map.mp hv
    rfl)

theorem sameKind_map_bool (xs : List Bool) : sameKind (xs.map FlexValue.bool) = true :=
  sameKind_of_kind _ 2 (by
    intro v hv
    obtain ⟨x, _, rfl⟩ := List.mem_map.mp hv
    rfl)

theorem sameKind_map_arrayElem (xs : List Attr) : sameKind (xs.map arrayElemValue) = true :=
  sameKind_of_kind _ 3 (by
    intro v hv
    obtain ⟨a, _, rfl⟩ := List.mem_map.mp hv
    cases a <;> rfl)

theorem endVector_eq (b : Builder) (s l : List FlexValue) (start : Nat)
    (typed fixed : Bool) (hstack : b.stack = s ++ l) (hstart : start = s.length) :
    b.EndVector start typed fixed =
      if typed && !sameKind l then none else some ⟨s ++ [.vec typed l]⟩ := by
  subst hstart
  simp only [Builder.EndVector, hstack, take_length_append, drop_length_append]

theorem pairUp_entriesFlat (es : List (String × FlexValue)) :
    pairUp (entriesFlat es) = some es := by
  induction es with
  | nil => rfl
  | cons e rest ih =>
    obtain ⟨k, v⟩ := e
    simp [entriesFlat, pairUp, ih]

theorem addIntegerArray_eq (fbb : Builder) (xs : List Int) :
    AddIntegerArray fbb xs = some ⟨fbb.stack ++ [.vec false (xs.map FlexValue.int)]⟩ := by
  have h := endVector_eq (xs.foldl (fun bb v => bb.Add (.int v)) fbb) fbb.stack
    (xs.map FlexValue.int) fbb.stack.length false false
    (foldl_add_map_stack FlexValue.int xs fbb) rfl
  simpa [AddIntegerArray, Builder.StartVector] using h

theorem foldl_add_map_builder {α : Type} (f : α → FlexValue) (xs : List α) (b : Builder) :
    (xs.foldl (fun bb v => bb.Add (f v)) b) = ⟨b.stack ++ xs.map f⟩ :=
  Builder.ext_stack _ _ (by rw [foldl_add_map_stack])

theorem foldl_add_builder (xs : List FlexValue) (b : Builder) :
    (xs.foldl (fun bb v => bb.Add v) b) = ⟨b.stack ++ xs⟩ :=
  Builder.ext_stack _ _ (by rw [foldl_add_stack])

theorem endVector_after_key (fbb : Builder) (k : String) (l : List FlexValue)
    (typed fixed : Bool) :
    Builder.EndVector ⟨fbb.stack ++ .key k :: l⟩ (fbb.stack.length + 1) typed fixed =
      if typed && !sameKind l then none
      else some ⟨fbb.stack ++ [.key k, .vec typed l]⟩ := by
  have h := endVector_eq ⟨fbb.stack ++ .key k :: l⟩ (fbb.stack ++ [.key k]) l
    (fbb.stack.length + 1) typed fixed (by simp) (by simp)
  simpa [List.append_assoc] using h

theorem buildOption_integer (fbb : Builder) (loc : Loc) (k : String) (i : Int) :
    BuildOption fbb loc (k, .integer i) =
      some (⟨fbb.stack ++ [.key k, .int i]⟩, [], true) := by
  simp [BuildOption, Builder.Int, Builder.Key, Builder.push]

theorem buildOption_float (fbb : Builder) (loc : Loc) (k : String) (v : Dbl) :
    BuildOption fbb loc (k, .float v) =
      some (⟨fbb.stack ++ [.key k, .double v]⟩, [], true) := by
  simp [BuildOption, Builder.Double, Builder.Key, Builder.push]

theorem buildOption_string (fbb : Builder) (loc : Loc) (k s : String) :
    BuildOption fbb loc (k, .string s) =
      some (⟨fbb.stack ++ [.key k, .str s]⟩, [], true) := by
  simp [BuildOption, Builder.String, Builder.Key, Builder.push]

theorem buildOption_comparisonDirection (fbb : Builder) (loc : Loc) (k : String)
    (d : ComparisonDirection) :
    BuildOption fbb loc (k, .comparisonDirection d) =
      some (⟨fbb.stack ++ [.key k, .str (stringifyComparisonDirection d)]⟩, [], true) := by
  simp [BuildOption, Builder.String, Builder.Key, Builder.push]

theorem buildOption_comparisonType (fbb : Builder) (loc : Loc) (k : String)
    (t : ComparisonType) :
    BuildOption fbb loc (k, .comparisonType t) =
      some (⟨fbb.stack ++ [.key k, .str (stringifyComparisonType t)]⟩, [], true) := by
  simp [BuildOption, Builder.String, Builder.Key, Builder.push]

theorem buildOption_elements (fbb : Builder) (loc : Loc) (k : String)
    (ftype : EType) (ivals : List Int) (dvals : List Dbl) :
    BuildOption fbb loc (k, .elements ftype ivals dvals) =
      if ftype.intLike then
        some (⟨fbb.stack ++ [.key k, .vec true (ivals.map FlexValue.int)]⟩, [], true)
      else if ftype.floatLike then
        some (⟨fbb.stack ++ [.key k, .vec true (dvals.map FlexValue.double)]⟩, [], true)
      else
        some (⟨fbb.stack ++ [.key k, .vec true []]⟩,
          [(loc, "serialization of ElementsAttr for " ++ k ++
            " only supports Integer and Float.")], true) := by
  by_cases h1 : (ftype.isInteger 16 || ftype.isInteger 32 || ftype.isInteger 64 ||
      ftype.isInteger 128 || ftype.isInteger 1) = true
  · simp [BuildOption, EType.intLike, h1, foldl_add_map_builder, Builder.Key,
      Builder.push, endVector_after_key, sameKind_map_int]
  · by_cases h2 : (ftype.isF32 || ftype.isF64 || ftype.isF128) = true
    · simp [BuildOption, EType.intLike, EType.floatLike, h1, h2, foldl_add_map_builder,
        Builder.Key, Builder.push, endVector_after_key, sameKind_map_double]
    · simp only [Bool.not_eq_true] at h1 h2
      have hempty : (fbb.Key k) = Builder.mk (fbb.stack ++ .key k :: []) := by
        simp [Builder.Key, Builder.push]
      simp [BuildOption, EType.intLike, EType.floatLike, h1, h2, hempty,
        Builder.Key, Builder.push, endVector_after_key, sameKind]

theorem buildOption_denseI64 (fbb : Builder) (loc : Loc) (k : String) (xs : List Int) :
    BuildOption fbb loc (k, .denseI64 xs) =
      some (⟨fbb.stack ++ [.key k, .vec true (xs.map FlexValue.int)]⟩, [], true) := by
  simp [BuildOption, foldl_add_map_builder, Builder.Key, Builder.push,
    endVector_after_key, sameKind_map_int]

theorem buildOption_denseBool (fbb : Builder) (loc : Loc) (k : String) (xs : List Bool) :
    BuildOption fbb loc (k, .denseBool xs) =
      some (⟨fbb.stack ++ [.key k, .vec true (xs.map FlexValue.bool)]⟩, [], true) := by
  simp [BuildOption, foldl_add_map_builder, Builder.Key, Builder.push,
    endVector_after_key, sameKind_map_bool]

theorem mapM_loop_arrayElem (xs : List Attr) (acc : List FlexValue)
    (h : ∀ a ∈ xs, (isStringAttr a || isPrecisionAttr a) = true) :
    List.mapM.loop (fun value =>
        match value with
        | Attr.precision p => some (FlexValue.str (stringifyPrecision p))
        | Attr.string s => some (FlexValue.str s)
        | _ => none) xs acc = some (acc.reverse ++ xs.map arrayElemValue) := by
  induction xs generalizing acc with
  | nil => simp [List.mapM.loop]
  | cons a xs ih =>
    have ha := h a (List.mem_cons_self _ _)
    have hrest := fun acc => ih acc (fun b hb => h b (List.mem_cons_of_mem _ hb))
    cases a <;> simp_all [List.mapM.loop, arrayElemValue, isStringAttr, isPrecisionAttr]

theorem buildOption_array_valid (fbb : Builder) (loc : Loc) (k : String) (xs : List Attr)
    (h : ∀ a ∈ xs, (isStringAttr a || isPrecisionAttr a) = true) :
    BuildOption fbb loc (k, .array xs) =
      some (⟨fbb.stack ++ [.key k, .vec true (xs.map arrayElemValue)]⟩, [], true) := by
  have hbad : (xs.length > 1 && !(xs.head?.elim false isStringAttr) &&
      !(xs.head?.elim false isPrecisionAttr)) = false := by
    cases xs with
    | nil => rfl
    | cons a xs' =>
      have ha := h a (List.mem_cons_self _ _)
      rw [Bool.or_eq_true] at ha
      rcases ha with hs | hp
      · simp [hs]
      · simp [hp]
  simp [BuildOption, hbad, mapM_loop_arrayElem xs [] h, foldl_add_builder, Builder.Key,
    Builder.push, endVector_after_key, sameKind_map_arrayElem]

theorem buildOption_conv (fbb : Builder) (loc : Loc) (k : String)
    (d : ConvDimensionNumbers) :
    BuildOption fbb loc (k, .convDims d) =
      some (⟨fbb.stack ++ [.key k, .vec false
        [.int d.inputBatchDimension, .int d.inputFeatureDimension,
         .vec false (d.inputSpatialDimensions.map FlexValue.int),
         .int d.kernelInputFeatureDimension, .int d.kernelOutputFeatureDimension,
         .vec false (d.kernelSpatialDimensions.map FlexValue.int),
         .int d.outputBatchDimension, .int d.outputFeatureDimension,
         .vec false (d.outputSpatialDimensions.map FlexValue.int)]]⟩, [], true) := by
  simp [BuildOption, addIntegerArray_eq, Builder.Add, Builder.Key, Builder.push,
    endVector_after_key]

theorem buildOption_gather (fbb : Builder) (loc : Loc) (k : String)
    (d : GatherDimensionNumbers) :
    BuildOption fbb loc (k, .gatherDims d) =
      some (⟨fbb.stack ++ [.key k, .vec false
        [.vec false (d.offsetDims.map FlexValue.int),
         .vec false (d.collapsedSliceDims.map FlexValue.int),
         .vec false (d.startIndexMap.map FlexValue.int),
         .int d.indexVectorDim]]⟩, [], true) := by
  simp [BuildOption, addIntegerArray_eq, Builder.Add, Builder.Key, Builder.push,
    endVector_after_key]

theorem buildOption_scatter (fbb : Builder) (loc : Loc) (k : String)
    (d : ScatterDimensionNumbers) :
    BuildOption fbb loc (k, .scatterDims d) =
      some (⟨fbb.stack ++ [.key k, .vec false
        [.vec false (d.updateWindowDims.map FlexValue.int),
         .vec false (d.insertedWindowDims.map FlexValue.int),
         .vec false (d.scatterDimsToOperandDims.map FlexValue.int),
         .int d.indexVectorDim]]⟩, [], true) := by
  simp [BuildOption, addIntegerArray_eq, Builder.Add, Builder.Key, Builder.push,
    endVector_after_key]

theorem buildOption_dot (fbb : Builder) (loc : Loc) (k : String)
    (d : DotDimensionNumbers) :
    BuildOption fbb loc (k, .dotDims d) =
      some (⟨fbb.stack ++ [.key k, .vec false
        [.vec false (d.lhsBatchingDimensions.map FlexValue.int),
         .vec false (d.rhsBatchingDimensions.map FlexValue.int),
         .vec false (d.lhsContractingDimensions.map FlexValue.int),
         .vec false (d.rhsContractingDimensions.map FlexValue.int)]]⟩, [], true) := by
  simp [BuildOption, addIntegerArray_eq, Builder.Add, Builder.Key, Builder.push,
    endVector_after_key]

theorem buildOption_default (fbb : Builder) (loc : Loc) (k : String) (a : Attr)
    (h : a.hitsDefault = true) :
    BuildOption fbb loc (k, a) =
      some (fbb, [(loc, "serialization not supported for : " ++ k)], false) := by
  cases a <;> simp_all [Attr.hitsDefault, BuildOption]

theorem cleanlySupported_not_default (a : Attr) (h : a.cleanlySupported = true) :
    a.hitsDefault = false := by
  cases a <;> simp_all [Attr.cleanlySupported, Attr.hitsDefault]

theorem hitsDefault_not_supported (a : Attr) (h : a.hitsDefault = true) :
    a.cleanlySupported = false := by
  cases a <;> simp_all [Attr.cleanlySupported, Attr.hitsDefault]

theorem buildOption_supported (fbb : Builder) (loc : Loc) (k : String) (a : Attr)
    (h : a.cleanlySupported = true) :
    ∃ v, BuildOption fbb loc (k, a) = some (⟨fbb.stack ++ [.key k, v]⟩, [], true) := by
  cases a with
  | integer i => exact ⟨_, buildOption_integer fbb loc k i⟩
  | float v => exact ⟨_, buildOption_float fbb loc k v⟩
  | elements ftype ivals dvals =>
    simp only [Attr.cleanlySupported, Bool.or_eq_true] at h
    by_cases h1 : ftype.intLike = true
    · exact ⟨.vec true (ivals.map FlexValue.int),
        by rw [buildOption_elements]; simp [h1]⟩
    · have h2 : ftype.floatLike = true := h.resolve_left h1
      exact ⟨.vec true (dvals.map FlexValue.double),
        by rw [buildOption_elements]; simp [h1, h2]⟩
  | denseI64 xs => exact ⟨_, buildOption_denseI64 fbb loc k xs⟩
  | denseBool xs => exact ⟨_, buildOption_denseBool fbb loc k xs⟩
  | string s => exact ⟨_, buildOption_string fbb loc k s⟩
  | array xs =>
    simp only [Attr.cleanlySupported, List.all_eq_true] at h
    exact ⟨.vec true (xs.map arrayElemValue), buildOption_array_valid fbb loc k xs h⟩
  | precision p => simp [Attr.cleanlySupported] at h
  | convDims d => exact ⟨_, buildOption_conv fbb loc k d⟩
  | gatherDims d => exact ⟨_, buildOption_gather fbb loc k d⟩
  | scatterDims d => exact ⟨_, buildOption_scatter fbb loc k d⟩
  | dotDims d => exact ⟨_, buildOption_dot fbb loc k d⟩
  | comparisonDirection d => exact ⟨_, buildOption_comparisonDirection fbb loc k d⟩
  | comparisonType t => exact ⟨_, buildOption_comparisonType fbb loc k t⟩
  | unsupported tag => simp [Attr.cleanlySupported] at h

theorem foldBuild_spec (loc : Loc) (options : List (String × Attr))
    (h : ∀ p ∈ options, p.2.cleanlySupported = true ∨ p.2.hitsDefault = true) :
    ∀ (b : Builder) (ws0 : List Warning),
      ∃ es : List (String × FlexValue),
        options.foldlM
          (fun (acc : Builder × List Warning) pair =>
            (BuildOption acc.1 loc pair).map (fun r => (r.1, acc.2 ++ r.2.1)))
          (b, ws0)
        = some (⟨b.stack ++ entriesFlat es⟩,
            ws0 ++ (options.filter (fun p => p.2.hitsDefault)).map
              (fun p => (loc, "serialization not supported for : " ++ p.1)))
        ∧ es.map Prod.fst = (options.filter (fun p => p.2.cleanlySupported)).map Prod.fst := by
  induction options with
  | nil =>
    intro b ws0
    refine ⟨[], ?_, rfl⟩
    simp [entriesFlat]
  | cons p rest ih =>
    intro b ws0
    obtain ⟨k, a⟩ := p
    rcases h (k, a) (List.mem_cons_self _ _) with hs | hd
    · obtain ⟨v, hv⟩ := buildOption_supported b loc k a hs
      obtain ⟨es, hfold, hkeys⟩ :=
        ih (fun q hq => h q (List.mem_cons_of_mem _ hq)) ⟨b.stack ++ [.key k, v]⟩ ws0
      have hnd := cleanlySupported_not_default a hs
      refine ⟨(k, v) :: es, ?_, ?_⟩
      · rw [List.foldlM_cons, hv]
        simp [hfold, entriesFlat, hnd, List.filter_cons]
      · simp [hkeys, hs, List.filter_cons]
    · have hnc := hitsDefault_not_supported a hd
      obtain ⟨es, hfold, hkeys⟩ :=
        ih (fun q hq => h q (List.mem_cons_of_mem _ hq)) b
          (ws0 ++ [(loc, "serialization not supported for : " ++ k)])
      refine ⟨es, ?_, ?_⟩
      · rw [List.foldlM_cons, buildOption_default b loc k a hd]
        simp [hfold, hd, List.filter_cons]
      · simp [hkeys, hnc, hd, List.filter_cons]

theorem buildNodeOptions_spec (loc : Loc) (options : List (String × Attr))
    (h : ∀ p ∈ options, p.2.cleanlySupported = true ∨ p.2.hitsDefault = true) :
    ∃ es : List (String × FlexValue),
      buildNodeOptions loc options =
        some (.map es,
          (options.filter (fun p => p.2.hitsDefault)).map
            (fun p => (loc, "serialization not supported for : " ++ p.1)))
      ∧ es.map Prod.fst = (options.filter (fun p => p.2.cleanlySupported)).map Prod.fst := by
  obtain ⟨es, hfold, hkeys⟩ := foldBuild_spec loc options h Builder.empty []
  simp only [Builder.empty, List.nil_append] at hfold
  refine ⟨es, ?_, hkeys⟩
  simp [buildNodeOptions, hfold, Builder.EndMap, Builder.StartMap, Builder.empty,
    pairUp_entriesFlat]

theorem legalizeNode_eq (fresh : Nat) (n : Node) (bytes : List Nat) (ws2 : List Warning)
    (h : serializeOptions n.loc (chooseNameAndOptions n).2.1 = some (bytes, ws2)) :
    legalizeNode fresh n = some
      ({ id := fresh, dialect := "tfl", opName := "tfl.custom", attrs := [],
         composite := none, operands := n.operands, resultTypes := n.resultTypes,
         loc := n.loc, customCode := some (chooseNameAndOptions n).1,
         payload := some bytes }, (chooseNameAndOptions n).2.2 ++ ws2) := by
  simp [legalizeNode, h]

theorem legalizeNode_inv (fresh : Nat) (n : Node) (r : Node × List Warning)
    (h : legalizeNode fresh n = some r) :
    ∃ bytes ws2,
      serializeOptions n.loc (chooseNameAndOptions n).2.1 = some (bytes, ws2)
      ∧ r.1.id = fresh ∧ r.1.loc = n.loc ∧ r.1.resultTypes = n.resultTypes
      ∧ r.1.operands = n.operands
      ∧ r.1.customCode = some (chooseNameAndOptions n).1
      ∧ r.1.payload = some bytes
      ∧ r.2 = (chooseNameAndOptions n).2.2 ++ ws2 := by
  rcases hs : serializeOptions n.loc (chooseNameAndOptions n).2.1 with _ | p
  · simp [legalizeNode, hs] at h
  · obtain ⟨bytes, ws2⟩ := p
    rw [legalizeNode_eq fresh n bytes ws2 hs] at h
    refine ⟨bytes, ws2, rfl, ?_⟩
    obtain rfl := Option.some.inj h
    simp

theorem legalizeGo_step_stablehlo (fresh : Nat) (done rest : List Node)
    (ws0 : List Warning) (n : Node) (r : Node × List Warning)
    (hd : n.dialect = "stablehlo") (h : legalizeNode fresh n = some r) :
    legalizeGo fresh done (n :: rest) ws0 =
      legalizeGo (fresh + 1) ((done ++ [r.1]).map (rewire n.id fresh))
        (rest.map (rewire n.id fresh)) (ws0 ++ r.2) := by
  rw [legalizeGo, hd]
  simp [h]

theorem legalizeGo_skip (fresh : Nat) (done rest : List Node) (ws0 : List Warning)
    (n : Node) (hd : ¬ n.dialect = "stablehlo") :
    legalizeGo fresh done (n :: rest) ws0 = legalizeGo fresh (done ++ [n]) rest ws0 := by
  rw [legalizeGo]
  simp [hd]

theorem legalizeGo_all_skip (fresh : Nat) (rest : List Node)
    (h : ∀ n ∈ rest, ¬ n.dialect = "stablehlo") :
    ∀ (done : List Node) (ws : List Warning),
      legalizeGo fresh done rest ws = some (done ++ rest, ws) := by
  induction rest with
  | nil =>
    intro done ws
    simp [legalizeGo]
  | cons n rest ih =>
    intro done ws
    rw [legalizeGo_skip fresh done rest ws n (h n (List.mem_cons_self _ _)),
      ih (fun m hm => h m (List.mem_cons_of_mem _ hm))]
    simp

theorem rewire_operands (oldId newId : Nat) (m : Node) :
    (rewire oldId newId m).operands =
      m.operands.map (fun p => if p.1 = oldId then (newId, p.2) else p) := rfl

/-- C2 (counterexample): the claim includes 8-bit integers among the
element widths encoded element-by-element, but `BuildOption` tests only
`isInteger(16/32/64/128/1)`, so an `ElementsAttr` of element type `i8` with
element `5` is encoded as an empty typed vector plus a warning, not as the
typed integer vector `[5]` without a warning that the claim requires. -/
theorem c2_i8_counterexample :
    BuildOption Builder.empty 0 ("k", .elements (.int 8) [5] []) =
      some (⟨[.key "k", .vec true []]⟩,
        [(0, "serialization of ElementsAttr for k only supports Integer and Float.")],
        true)
    ∧ BuildOption Builder.empty 0 ("k", .elements (.int 8) [5] []) ≠
      some (⟨[.key "k", .vec true [.int 5]]⟩, [], true) := by
  refine ⟨rfl, ?_⟩
  intro hcontra
  rw [show BuildOption Builder.empty 0 ("k", .elements (.int 8) [5] []) =
      some (⟨[.key "k", .vec true []]⟩,
        [(0, "serialization of ElementsAttr for k only supports Integer and Float.")],
        true) from rfl] at hcontra
  simp at hcontra

/-- C2 (amended): for every `ElementsAttr` attribute the encoder inspects the
element type once; when it is an integer of width 16, 32, 64 or 128 bits or
boolean (width 1 — width 8 is NOT checked by the source), it emits each
element as a signed integer into a typed vector; when it is 32-, 64- or
128-bit float it emits each element as a double into a typed vector; any
other element type (including `i8`) yields a warning while still closing the
empty typed vector, leaving the builder consistent. -/
theorem c2_elements_encoding (fbb : Builder) (loc : Loc) (k : String)
    (ftype : EType) (ivals : List Int) (dvals : List Dbl) :
    BuildOption fbb loc (k, .elements ftype ivals dvals) =
      if ftype.isInteger 16 || ftype.isInteger 32 || ftype.isInteger 64 ||
          ftype.isInteger 128 || ftype.isInteger 1 then
        some (⟨fbb.stack ++ [.key k, .vec true (ivals.map FlexValue.int)]⟩, [], true)
      else if ftype.isF32 || ftype.isF64 || ftype.isF128 then
        some (⟨fbb.stack ++ [.key k, .vec true (dvals.map FlexValue.double)]⟩, [], true)
      else
        some (⟨fbb.stack ++ [.key k, .vec true []]⟩,
          [(loc, "serialization of ElementsAttr for " ++ k ++
            " only supports Integer and Float.")], true) := by
  have h := buildOption_elements fbb loc k ftype ivals dvals
  simpa [EType.intLike, EType.floatLike] using h

/-- C3 (code-bug evaluation): the claim says the encoder never aborts and
only warns-and-omits, but a heterogeneous list containing a non-string,
non-precision element among the elements it iterates calls `.data()` on a
null `dyn_cast_or_null<StringAttr>` result (source line 161): a two-element
list `["a", 1]` passes the first-element-only validation and then crashes on
the integer element, and a singleton list `[7]` skips validation (size ≤ 1)
and crashes immediately.  `none` models this undefined behaviour. -/
theorem c3_array_null_deref :
    BuildOption Builder.empty 0 ("k", .array [.string "a", .integer 1]) = none
    ∧ BuildOption Builder.empty 0 ("k", .array [.integer 7]) = none := ⟨rfl, rfl⟩

/-- C4 (code-bug evaluation): the claim says a rejected heterogeneous list
still binds its key to an empty vector leaving the builder consistent, but
the warning path of the `ArrayAttr` branch returns after `StartVector(key)`
without ever calling `EndVector` (source lines 145-151): the key is pushed
with no value, and the enclosing `EndMap` then fails on the dangling key, so
the whole options map cannot be built for such a node. -/
theorem c4_array_invalid_dangling_key :
    BuildOption Builder.empty 0 ("k", .array [.integer 1, .integer 2]) =
      some (⟨[.key "k"]⟩,
        [(0, "serialization of ArrayAttr for k only supports Strings.")], true)
    ∧ buildNodeOptions 0 [("k", .array [.integer 1, .integer 2])] = none := ⟨rfl, rfl⟩

/-- C5: for every heterogeneous list all of whose elements are strings or the
enumerated precision tag, the encoder emits exactly one stringified entry per
element (a typed vector of the same length), each precision tag being
stringified to its canonical lowercase name before insertion. -/
theorem c5_valid_array_stringified (fbb : Builder) (loc : Loc) (k : String)
    (xs : List Attr) (h : ∀ a ∈ xs, (isStringAttr a || isPrecisionAttr a) = true) :
    BuildOption fbb loc (k, .array xs) =
      some (⟨fbb.stack ++ [.key k, .vec true (xs.map arrayElemValue)]⟩, [], true)
    ∧ (xs.map arrayElemValue).length = xs.length
    ∧ ∀ p : Precision, arrayElemValue (.precision p) = .str (stringifyPrecision p) :=
  ⟨buildOption_array_valid fbb loc k xs h, by simp, fun p => rfl⟩

/-- Witness for C5 at a concrete two-element list holding a string and the
HIGH precision tag. -/
theorem c5_valid_array_stringified_witness :
    BuildOption Builder.empty 0 ("p", .array [.string "a", .precision .HIGH]) =
      some (⟨Builder.empty.stack ++
        [.key "p", .vec true ([Attr.string "a", Attr.precision .HIGH].map arrayElemValue)]⟩,
        [], true)
    ∧ ([Attr.string "a", Attr.precision .HIGH].map arrayElemValue).length =
        ([Attr.string "a", Attr.precision .HIGH] : List Attr).length
    ∧ ∀ p : Precision, arrayElemValue (.precision p) = .str (stringifyPrecision p) :=
  c5_valid_array_stringified Builder.empty 0 "p" [.string "a", .precision .HIGH]
    (by decide)

/-- C6: a convolution dimension-numbers attribute is encoded as one untyped
vector holding, in this exact order: inputBatchDim, inputFeatureDim, the
input spatial dimensions as a nested vector, kernelInputFeatureDim,
kernelOutputFeatureDim, the kernel spatial dimensions as a nested vector,
outputBatchDim, outputFeatureDim, and the output spatial dimensions as a
nested vector — no field omitted or reordered. -/
theorem c6_conv_dimension_numbers_order (fbb : Builder) (loc : Loc) (k : String)
    (d : ConvDimensionNumbers) :
    BuildOption fbb loc (k, .convDims d) =
      some (⟨fbb.stack ++ [.key k, .vec false
        [.int d.inputBatchDimension, .int d.inputFeatureDimension,
         .vec false (d.inputSpatialDimensions.map FlexValue.int),
         .int d.kernelInputFeatureDimension, .int d.kernelOutputFeatureDimension,
         .vec false (d.kernelSpatialDimensions.map FlexValue.int),
         .int d.outputBatchDimension, .int d.outputFeatureDimension,
         .vec false (d.outputSpatialDimensions.map FlexValue.int)]]⟩, [], true) :=
  buildOption_conv fbb loc k d

/-- C8: for every attribute list interleaving unsupported-kind attributes with
cleanly supported ones, the encoded options map contains exactly the keys of
the supported attributes in their original relative order, and exactly one
default-arm warning is emitted per unsupported key (in order). -/
theorem c8_mixed_attribute_maps (loc : Loc) (options : List (String × Attr))
    (h : ∀ p ∈ options, p.2.cleanlySupported = true ∨ p.2.hitsDefault = true)
    (_hmix : ∃ p ∈ options, p.2.hitsDefault = true) :
    ∃ es : List (String × FlexValue),
      buildNodeOptions loc options =
        some (.map es,
          (options.filter (fun p => p.2.hitsDefault)).map
            (fun p => (loc, "serialization not supported for : " ++ p.1)))
      ∧ es.map Prod.fst =
          (options.filter (fun p => p.2.cleanlySupported)).map Prod.fst :=
  buildNodeOptions_spec loc options h

/-- Witness for C8 at a concrete attribute list interleaving an unsupported
attribute between two supported ones. -/
theorem c8_mixed_attribute_maps_witness :
    ∃ es : List (String × FlexValue),
      buildNodeOptions 0
          [("a", Attr.integer 1), ("b", Attr.unsupported "sym"), ("c", Attr.string "x")] =
        some (.map es,
          ([("a", Attr.integer 1), ("b", Attr.unsupported "sym"),
            ("c", Attr.string "x")].filter (fun p => p.2.hitsDefault)).map
            (fun p => (0, "serialization not supported for : " ++ p.1)))
      ∧ es.map Prod.fst =
          ([("a", Attr.integer 1), ("b", Attr.unsupported "sym"),
            ("c", Attr.string "x")].filter (fun p => p.2.cleanlySupported)).map Prod.fst :=
  c8_mixed_attribute_maps 0
    [("a", Attr.integer 1), ("b", Attr.unsupported "sym"), ("c", Attr.string "x")]
    (by decide) (by decide)

/-- C1: for every source-dialect node the legalizer processes, exactly one
replacement custom node is constructed at the node's position with a fresh
identity, carrying the original's location, result types, operand list in
unchanged order, the chosen custom-op name and the serialized options
payload; every existing use of the original's results (anywhere in the
function) is rewired to the replacement's results by positional index, and
the original node is erased from the graph. -/
theorem c1_replacement_rewrite (fresh : Nat) (done rest : List Node)
    (ws0 : List Warning) (n : Node) (r : Node × List Warning)
    (hd : n.dialect = "stablehlo") (h : legalizeNode fresh n = some r) :
    legalizeGo fresh done (n :: rest) ws0 =
      legalizeGo (fresh + 1) ((done ++ [r.1]).map (rewire n.id fresh))
        (rest.map (rewire n.id fresh)) (ws0 ++ r.2)
    ∧ r.1.loc = n.loc
    ∧ r.1.resultTypes = n.resultTypes
    ∧ r.1.operands = n.operands
    ∧ r.1.customCode = some (chooseNameAndOptions n).1
    ∧ (∃ bytes ws2,
        serializeOptions n.loc (chooseNameAndOptions n).2.1 = some (bytes, ws2)
        ∧ r.1.payload = some bytes)
    ∧ r.1.id = fresh
    ∧ (∀ m : Node, (rewire n.id fresh m).operands =
        m.operands.map (fun p => if p.1 = n.id then (fresh, p.2) else p)) := by
  obtain ⟨bytes, ws2, hs, hid, hloc, hrt, hop, hcc, hpl, hws⟩ :=
    legalizeNode_inv fresh n r h
  exact ⟨legalizeGo_step_stablehlo fresh done rest ws0 n r hd h,
    hloc, hrt, hop, hcc, ⟨bytes, ws2, hs, hpl⟩, hid, fun m => rfl⟩

/-- Witness for C1 at a concrete StableHLO node with one integer attribute. -/
theorem c1_replacement_rewrite_witness :
    legalizeGo 10 [] [sampleAdd] [] =
      legalizeGo 11 (([] ++ [sampleAddRepl.1]).map (rewire sampleAdd.id 10))
        (([] : List Node).map (rewire sampleAdd.id 10)) ([] ++ sampleAddRepl.2)
    ∧ sampleAddRepl.1.loc = sampleAdd.loc
    ∧ sampleAddRepl.1.resultTypes = sampleAdd.resultTypes
    ∧ sampleAddRepl.1.operands = sampleAdd.operands
    ∧ sampleAddRepl.1.customCode = some (chooseNameAndOptions sampleAdd).1
    ∧ (∃ bytes ws2,
        serializeOptions sampleAdd.loc (chooseNameAndOptions sampleAdd).2.1 =
          some (bytes, ws2)
        ∧ sampleAddRepl.1.payload = some bytes)
    ∧ sampleAddRepl.1.id = 10
    ∧ (∀ m : Node, (rewire sampleAdd.id 10 m).operands =
        m.operands.map (fun p => if p.1 = sampleAdd.id then (10, p.2) else p)) :=
  c1_replacement_rewrite 10 [] [] [] sampleAdd sampleAddRepl rfl rfl

/-- C7: a composite whose inner name is on the two-entry allow-list yields a
custom node named by the composite's inner name whose encoded attribute set
is the composite's nested attribute dictionary; a composite whose inner name
is not on the allow-list yields one no-specialization warning and is treated
as a generic node (its own name and its own attribute dictionary). -/
theorem c7_composite_allowlist (n : Node) (cname : String)
    (cattrs : List (String × Attr)) (fresh : Nat) (r : Node × List Warning)
    (hc : n.composite = some (cname, cattrs))
    (h : legalizeNode fresh n = some r) :
    (supportedComposites.contains cname = true →
      r.1.customCode = some cname
      ∧ ∃ bytes ws2, serializeOptions n.loc cattrs = some (bytes, ws2)
          ∧ r.1.payload = some bytes ∧ r.2 = ws2)
    ∧ (supportedComposites.contains cname = false →
      r.1.customCode = some n.opName
      ∧ ∃ bytes ws2, serializeOptions n.loc n.attrs = some (bytes, ws2)
          ∧ r.1.payload = some bytes
          ∧ r.2 = (n.loc, "composite has no specializaiton " ++ cname) :: ws2) := by
  obtain ⟨bytes, ws2, hs, hid, hloc, hrt, hop, hcc, hpl, hws⟩ :=
    legalizeNode_inv fresh n r h
  constructor
  · intro hm
    have hm' : cname ∈ supportedComposites := by simpa using hm
    have hch : chooseNameAndOptions n = (cname, cattrs, []) := by
      simp [chooseNameAndOptions, hc, IsSupportedComposite, hm']
    rw [hch] at hs hcc hws
    exact ⟨hcc, bytes, ws2, hs, hpl, hws⟩
  · intro hm
    have hm' : ¬ cname ∈ supportedComposites := by simpa using hm
    have hch : chooseNameAndOptions n =
        (n.opName, n.attrs,
          [(n.loc, "composite has no specializaiton " ++ cname)]) := by
      simp [chooseNameAndOptions, hc, IsSupportedComposite, hm']
    rw [hch] at hs hcc hws
    exact ⟨hcc, bytes, ws2, hs, hpl, hws⟩

/-- Witness for C7 at a concrete allow-listed composite. -/
theorem c7_composite_allowlist_witness :
    (supportedComposites.contains "odml.update_kv_cache" = true →
      sampleCompositeRepl.1.customCode = some "odml.update_kv_cache"
      ∧ ∃ bytes ws2, serializeOptions sampleComposite.loc
            [("num_layers", Attr.integer 4)] = some (bytes, ws2)
          ∧ sampleCompositeRepl.1.payload = some bytes ∧ sampleCompositeRepl.2 = ws2)
    ∧ (supportedComposites.contains "odml.update_kv_cache" = false →
      sampleCompositeRepl.1.customCode = some sampleComposite.opName
      ∧ ∃ bytes ws2, serializeOptions sampleComposite.loc sampleComposite.attrs =
            some (bytes, ws2)
          ∧ sampleCompositeRepl.1.payload = some bytes
          ∧ sampleCompositeRepl.2 =
              (sampleComposite.loc,
                "composite has no specializaiton " ++ "odml.update_kv_cache") :: ws2) :=
  c7_composite_allowlist sampleComposite "odml.update_kv_cache"
    [("num_layers", Attr.integer 4)] 20 sampleCompositeRepl rfl rfl

/-- C9: running the pass on a unit containing zero source-dialect nodes is a
no-op: the unit is returned unchanged and no diagnostics are emitted. -/
theorem c9_noop_without_stablehlo (fn : List Node)
    (h : ∀ n ∈ fn, ¬ n.dialect = "stablehlo") :
    runOnOperation fn = some (fn, []) := by
  rw [runOnOperation, legalizeGo_all_skip (freshStart fn) fn h]
  simp

/-- Witness for C9 at a one-node unit of a different dialect. -/
theorem c9_noop_without_stablehlo_witness :
    runOnOperation [sampleArith] = some ([sampleArith], []) :=
  c9_noop_without_stablehlo [sampleArith] (by decide)

/-- C10: a non-composite source-dialect node with an empty attribute
dictionary is still replaced, and its replacement's payload is exactly the
serialization of the empty options map — a non-empty byte string, neither
empty nor absent. -/
theorem c10_empty_attrs_payload (fresh : Nat) (n : Node)
    (hd : n.dialect = "stablehlo") (hc : n.composite = none) (ha : n.attrs = [])
    (done rest : List Node) (ws0 : List Warning) :
    ∃ newN : Node,
      legalizeNode fresh n = some (newN, [])
      ∧ newN.payload = some (flexSerialize (.map []))
      ∧ flexSerialize (FlexValue.map []) ≠ []
      ∧ legalizeGo fresh done (n :: rest) ws0 =
          legalizeGo (fresh + 1) ((done ++ [newN]).map (rewire n.id fresh))
            (rest.map (rewire n.id fresh)) ws0 := by
  have hch : chooseNameAndOptions n = (n.opName, n.attrs, []) := by
    simp [chooseNameAndOptions, hc]
  have hser : serializeOptions n.loc (chooseNameAndOptions n).2.1 =
      some (flexSerialize (.map []), []) := by
    rw [hch]
    simp only [ha]
    rfl
  have key2 : legalizeNode fresh n = some
      ({ id := fresh, dialect := "tfl", opName := "tfl.custom", attrs := [],
         composite := none, operands := n.operands, resultTypes := n.resultTypes,
         loc := n.loc, customCode := some n.opName,
         payload := some (flexSerialize (.map [])) }, []) := by
    rw [legalizeNode_eq fresh n (flexSerialize (.map [])) [] hser, hch]
    rfl
  refine ⟨_, key2, rfl, by simp [flexSerialize], ?_⟩
  have hstep := legalizeGo_step_stablehlo fresh done rest ws0 n _ hd key2
  simpa using hstep

/-- Witness for C10 at a concrete attribute-free StableHLO node. -/
theorem c10_empty_attrs_payload_witness :
    ∃ newN : Node,
      legalizeNode 12 sampleEmptyAttrs = some (newN, [])
      ∧ newN.payload = some (flexSerialize (.map []))
      ∧ flexSerialize (FlexValue.map []) ≠ []
      ∧ legalizeGo 12 [] [sampleEmptyAttrs] [] =
          legalizeGo 13 (([] ++ [newN]).map (rewire sampleEmptyAttrs.id 12))
            (([] : List Node).map (rewire sampleEmptyAttrs.id 12)) [] :=
  c10_empty_attrs_payload 12 sampleEmptyAttrs rfl rfl rfl [] [] []

end StablehloTfl
